import Mathlib

/-!
# LabelWatch — verification of the change-detection and cross-validation core

Shallow embedding of the core pipeline of the LabelWatch repository:

* `src/scrapers/openfda.py` — `cross_validate_dailymed_vs_fda` (CrossValidator)
* `src/scrapers/dailymed.py` — `get_previous_version` (VersionResolver),
  `parse_spl_sections` (SectionExtractor), `_parse_unified_diff_to_added_removed`
  (DiffEngine), `get_label_changes` (ChangeSummaryBuilder), `apply_filters`
  (FilterPipeline), `parse_label_date`.

Network collaborators (`requests`, `fetch_spl_history`, `fetch_spl_xml`,
`fetch_spl_zip`, `fetch_spl_setids_for_drug_class`) are modelled as explicit
parameters carrying the data they would return.  XML documents are modelled as
lists of sections (code plus optional narrative-text node), matching the shape
`parse_spl_sections` actually inspects via its XPath queries.  Python `str`
operations are re-implemented over `List Char` so that every definition is
kernel-executable.
-/

namespace LabelWatch

/-! ## Python string primitives (over `List Char`) -/

/-- Python `\s` whitespace class restricted to the ASCII characters that occur
in the data handled by this code. -/
def isWs (c : Char) : Bool :=
  c = ' ' || c = '\t' || c = '\n' || c = '\r' || c = '\x0b' || c = '\x0c'

/-- Strip leading and trailing whitespace from a character list
(Python `str.strip()`). -/
def stripChars (cs : List Char) : List Char :=
  ((cs.dropWhile isWs).reverse.dropWhile isWs).reverse

/-- Python `str.strip()`. -/
def pyStrip (s : String) : String := ⟨stripChars s.data⟩

/-- Python `s[:n]` on a string. -/
def pyTake (n : Nat) (s : String) : String := ⟨s.data.take n⟩

/-- Python `len(s)`. -/
def pyLen (s : String) : Nat := s.data.length

/-- ASCII lower-casing of one character (Python `str.lower()` on the ASCII
range actually exercised by this code). -/
def lowerChar (c : Char) : Char :=
  if 'A' ≤ c ∧ c ≤ 'Z' then Char.ofNat (c.toNat + 32) else c

/-- Python `str.lower()`. -/
def pyLower (s : String) : String := ⟨s.data.map lowerChar⟩

/-- Substring test, Python `needle in hay`. -/
def listContains (hay needle : List Char) : Bool :=
  match hay with
  | [] => needle.isEmpty
  | _ :: rest => needle.isPrefixOf hay || listContains rest needle

/-- Python `needle in hay` on strings. -/
def pyContains (hay needle : String) : Bool := listContains hay.data needle.data

/-! ## Dates

Python `datetime.date` restricted to what the code uses: construction with
validation, lexicographic comparison, subtraction in days, `isoformat`. -/

/-- A calendar date (proleptic Gregorian, year ≥ 1 as in Python `datetime`). -/
structure Date where
  year : Nat
  month : Nat
  day : Nat
deriving DecidableEq, Repr

def isLeapYear (y : Nat) : Bool :=
  y % 4 = 0 && (y % 100 ≠ 0 || y % 400 = 0)

def daysInMonth (y m : Nat) : Nat :=
  if m = 2 then (if isLeapYear y then 29 else 28)
  else if m = 4 || m = 6 || m = 9 || m = 11 then 30
  else 31

/-- `datetime.date(y, m, d)` with validation: `none` models the `ValueError`
raised on an invalid combination (Python `MINYEAR = 1`). -/
def mkDate (y m d : Nat) : Option Date :=
  if 1 ≤ y && y ≤ 9999 && 1 ≤ m && m ≤ 12 && 1 ≤ d && d ≤ daysInMonth y m then
    some ⟨y, m, d⟩
  else none

/-- Day count of a date (days-from-civil, proleptic Gregorian).  Python's
`date.toordinal` differs from this by a fixed offset only, so differences of
two dates — all the code computes — agree exactly. -/
def Date.toOrdinal (dt : Date) : Nat :=
  let y := if dt.month ≤ 2 then dt.year - 1 else dt.year
  let era := y / 400
  let yoe := y % 400
  let mp := (dt.month + 9) % 12
  let doy := (153 * mp + 2) / 5 + dt.day - 1
  let doe := yoe * 365 + yoe / 4 - yoe / 100 + doy
  era * 146097 + doe

/-- Python `d1 < d2` on dates: lexicographic on (year, month, day). -/
def dateLt (a b : Date) : Bool :=
  decide (a.year < b.year) ||
    (a.year == b.year &&
      (decide (a.month < b.month) ||
        (a.month == b.month && decide (a.day < b.day))))

def pad2 (n : Nat) : String := if n < 10 then "0" ++ toString n else toString n

def pad4 (n : Nat) : String :=
  if n < 10 then "000" ++ toString n
  else if n < 100 then "00" ++ toString n
  else if n < 1000 then "0" ++ toString n
  else toString n

/-- Python `date.isoformat()`: `YYYY-MM-DD`. -/
def Date.isoformat (d : Date) : String :=
  pad4 d.year ++ "-" ++ pad2 d.month ++ "-" ++ pad2 d.day

/-! ## CrossValidator — `src/scrapers/openfda.py` -/

/-- `FDALabelInfo` dataclass (openfda.py lines 14-20). -/
structure FDALabelInfo where
  set_id : String
  effective_date : Option Date
  effective_time_raw : String
  found : Bool
deriving DecidableEq, Repr

/-- `cross_validate_dailymed_vs_fda` (openfda.py lines 86-109): compare the
DailyMed update date with the FDA effective date, returning
(status message, lag in days or `none`). -/
def cross_validate_dailymed_vs_fda (dailymed_date : Option Date)
    (fda_info : Option FDALabelInfo) : String × Option Int :=
  match fda_info with
  | none => ("FDA (openFDA): not queried", none)
  | some info =>
    if !info.found then
      ("FDA (openFDA): no record found for this set ID", none)
    else
      match info.effective_date with
      | none =>
        ("FDA (openFDA): effective date not parsed (raw: " ++
          info.effective_time_raw ++ ")", none)
      | some fda_d =>
        match dailymed_date with
        | none =>
          ("FDA effective date: " ++ fda_d.isoformat ++ " (DailyMed date unknown)",
            none)
        | some dm_d =>
          let lag : Int := (dm_d.toOrdinal : Int) - (fda_d.toOrdinal : Int)
          if lag = 0 then
            ("FDA (openFDA): in sync — effective " ++ fda_d.isoformat, some 0)
          else if lag > 0 then
            ("FDA (openFDA): DailyMed " ++ toString lag ++
              " day(s) ahead — FDA effective " ++ fda_d.isoformat, some lag)
          else
            ("FDA (openFDA): FDA " ++ toString (-lag) ++
              " day(s) ahead — FDA effective " ++ fda_d.isoformat, some lag)

/-! ## VersionResolver — `get_previous_version` (dailymed.py lines 283-293) -/

/-- One step of Python `sorted(..., reverse=True)`: insert into a
descending-sorted list. -/
def insertDesc (x : Nat) : List Nat → List Nat
  | [] => [x]
  | y :: ys => if y ≤ x then x :: y :: ys else y :: insertDesc x ys

/-- Python `sorted(versions, reverse=True)`. -/
def sortDesc : List Nat → List Nat
  | [] => []
  | x :: xs => insertDesc x (sortDesc xs)

/-- `get_previous_version` (dailymed.py lines 283-293).  The result of the
`fetch_spl_history` network collaborator is passed in as `history`: `none`
models `not data` (fetch failed / empty), `some hs` carries the
`spl_version` numbers of the history records.  The code sorts the versions
descending and returns the first one strictly below `current_version`. -/
def get_previous_version (history : Option (List Nat)) (current_version : Nat) :
    Option Nat :=
  match history with
  | none => none
  | some hs => (sortDesc hs).find? (fun v => decide (v < current_version))

theorem mem_insertDesc {a x : Nat} {l : List Nat} :
    a ∈ insertDesc x l ↔ a = x ∨ a ∈ l := by
  induction l with
  | nil => simp [insertDesc]
  | cons y ys ih =>
    simp only [insertDesc]
    split
    · simp
    · simp only [List.mem_cons, ih]
      tauto

theorem sorted_insertDesc {x : Nat} {l : List Nat}
    (h : List.Sorted (· ≥ ·) l) : List.Sorted (· ≥ ·) (insertDesc x l) := by
  induction l with
  | nil => simp [insertDesc]
  | cons y ys ih =>
    rw [List.sorted_cons] at h
    obtain ⟨hy, hys⟩ := h
    simp only [insertDesc]
    split
    · rename_i hle
      rw [List.sorted_cons]
      constructor
      · intro b hb
        rcases List.mem_cons.mp hb with hb | hb
        · omega
        · have := hy b hb; omega
      · rw [List.sorted_cons]; exact ⟨hy, hys⟩
    · rename_i hgt
      rw [List.sorted_cons]
      constructor
      · intro b hb
        rcases mem_insertDesc.mp hb with hb | hb
        · omega
        · exact hy b hb
      · exact ih hys

theorem mem_sortDesc {a : Nat} {l : List Nat} : a ∈ sortDesc l ↔ a ∈ l := by
  induction l with
  | nil => simp [sortDesc]
  | cons x xs ih => simp [sortDesc, mem_insertDesc, ih]

theorem sorted_sortDesc (l : List Nat) : List.Sorted (· ≥ ·) (sortDesc l) := by
  induction l with
  | nil => simp [sortDesc]
  | cons x xs ih => exact sorted_insertDesc ih

/-- On a descending-sorted list, `find?` of `(· < c)` returns the greatest
element below `c`. -/
theorem find_lt_is_max {c v : Nat} {l : List Nat}
    (hs : List.Sorted (· ≥ ·) l)
    (h : l.find? (fun w => decide (w < c)) = some v) :
    v ∈ l ∧ v < c ∧ ∀ w ∈ l, w < c → w ≤ v := by
  induction l with
  | nil => simp at h
  | cons x xs ih =>
    rw [List.sorted_cons] at hs
    obtain ⟨hx, hxs⟩ := hs
    rw [List.find?_cons] at h
    by_cases hxc : x < c
    · simp only [decide_eq_true hxc] at h
      injection h with h
      subst h
      refine ⟨List.mem_cons_self _ _, hxc, ?_⟩
      intro w hw _
      rcases List.mem_cons.mp hw with hw | hw
      · omega
      · exact hx w hw
    · simp only [decide_eq_false hxc] at h
      obtain ⟨hmem, hlt, hmax⟩ := ih hxs h
      refine ⟨List.mem_cons_of_mem _ hmem, hlt, ?_⟩
      intro w hw hwc
      rcases List.mem_cons.mp hw with hw | hw
      · omega
      · exact hmax w hw hwc

/-! ## SectionExtractor — `parse_spl_sections` (dailymed.py lines 343-375)

The lxml layer is abstracted: a document is the list of its `<section>`
elements, each carrying the `@code` of its `<code>` child and, when a
narrative `<text>` sub-element exists, that element's text serialization
(`etree.tostring(..., method="text")`, which yields the text content with
markup already dropped).  `parse_spl_sections` then runs the repository's own
post-processing (`_strip_html_to_text`, truncation) on it. -/

/-- One `<section>` element as inspected by the XPath queries: its code and
the text serialization of its first `.//text` sub-element (`none` when the
section has no text sub-element). -/
structure SplSection where
  code : String
  text_el : Option String
deriving DecidableEq, Repr

/-- An SPL document, abstracted to the section list the XPath queries see. -/
abbrev SplDoc := List SplSection

/-- `SPL_SECTION_CODES` (dailymed.py lines 24-29), in insertion order. -/
def SPL_SECTION_CODES : List (String × String) :=
  [("34067-9", "Warnings and Precautions"),
   ("34068-7", "Dosage and Administration"),
   ("43685-7", "Contraindications"),
   ("42232-9", "Indications and Usage")]

/-- Scanner state machine for `re.sub(r"<[^>]+>", " ", text)`
(`_strip_html_to_text`, dailymed.py line 338): `none` = outside a candidate
tag, `some buf` = inside one, `buf` holding the reversed content read since
the opening `<`.  An unclosed `<...` or an empty `<>` is no match and stays
literal, exactly as with the regex. -/
def removeTagsAux : Option (List Char) → List Char → List Char
  | none, [] => []
  | none, c :: cs =>
    if c = '<' then removeTagsAux (some []) cs else c :: removeTagsAux none cs
  | some buf, [] => '<' :: buf.reverse
  | some buf, c :: cs =>
    if c = '>' then
      if buf.isEmpty then '<' :: '>' :: removeTagsAux none cs
      else ' ' :: removeTagsAux none cs
    else removeTagsAux (some (c :: buf)) cs

/-- `re.sub(r"\s+", " ", text)` (dailymed.py line 339): collapse whitespace
runs to single spaces.  `prevWs` records whether the previous character was
part of a whitespace run. -/
def collapseWsAux (prevWs : Bool) : List Char → List Char
  | [] => []
  | c :: cs =>
    if isWs c then
      if prevWs then collapseWsAux true cs else ' ' :: collapseWsAux true cs
    else c :: collapseWsAux false cs

/-- `_strip_html_to_text` (dailymed.py lines 334-340): strip tags, collapse
whitespace, trim. -/
def stripHtmlToText (s : String) : String :=
  if s.data.isEmpty then ""
  else ⟨stripChars (collapseWsAux false (removeTagsAux none s.data))⟩

/-- The section-location loop of `parse_spl_sections` (dailymed.py lines
352-372): among the sections whose code matches, the first one that has a
`text` sub-element supplies the raw text (the loop `break`s there); if no
matching section has one, nothing is recorded for this code. -/
def findSectionText (doc : SplDoc) (code : String) : Option String :=
  (doc.filter (fun s => s.code == code)).findSome? (fun s => s.text_el)

/-- `parse_spl_sections` (dailymed.py lines 343-375).  `none` models an
absent/empty/malformed document (`if not xml_str` or an `etree` parse
failure), which yields the empty mapping.  The result is the section-name →
text association list, in `SPL_SECTION_CODES` order. -/
def parse_spl_sections (doc : Option SplDoc) : List (String × String) :=
  match doc with
  | none => []
  | some d =>
    SPL_SECTION_CODES.filterMap (fun cn =>
      (findSectionText d cn.1).map (fun raw =>
        (cn.2, pyTake 8000 (stripHtmlToText raw))))

/-! ## DiffEngine — `_parse_unified_diff_to_added_removed`
(dailymed.py lines 378-393)

`difflib.unified_diff(old, new, lineterm="", n=0)` is an external library
call; its post-processed output — the lines only in `new` ("+", added) and
the lines only in `old` ("-", removed), headers excluded, each stripped — is
modelled as the complement of a longest common subsequence, which is the
added/removed decomposition a unified diff reports. -/

/-- A longest common subsequence of two line lists. -/
def lcs : List String → List String → List String
  | [], _ => []
  | _ :: _, [] => []
  | x :: xs, y :: ys =>
    if x = y then x :: lcs xs ys
    else
      let a := lcs (x :: xs) ys
      let b := lcs xs (y :: ys)
      if b.length ≤ a.length then a else b
termination_by xs ys => xs.length + ys.length

/-- Remove an (ordered) subsequence from a list, keeping the unmatched
elements: the "+"/"-" lines of the diff are the inputs minus the common
subsequence. -/
def removeSubseq : List String → List String → List String
  | xs, [] => xs
  | [], _ :: _ => []
  | x :: xs, c :: cs =>
    if x = c then removeSubseq xs cs else x :: removeSubseq xs (c :: cs)

/-- `_parse_unified_diff_to_added_removed` (dailymed.py lines 378-393):
returns `(added, removed)`, each line stripped (`line[1:].strip()`). -/
def parse_unified_diff_to_added_removed (old_lines new_lines : List String) :
    List String × List String :=
  let common := lcs old_lines new_lines
  ((removeSubseq new_lines common).map pyStrip,
   (removeSubseq old_lines common).map pyStrip)

/-! ## ChangeSummaryBuilder — `get_label_changes` (dailymed.py lines 396-458) -/

/-- Python `str.splitlines()` for newline-delimited text (no trailing empty
segment; empty string gives `[]`).  `acc` holds the current segment
reversed. -/
def splitNlAux (acc : List Char) : List Char → List String
  | [] => [⟨acc.reverse⟩]
  | c :: cs =>
    if c = '\n' then
      match cs with
      | [] => [⟨acc.reverse⟩]
      | _ :: _ => ⟨acc.reverse⟩ :: splitNlAux [] cs
    else splitNlAux (c :: acc) cs

/-- Python `str.splitlines()`. -/
def pySplitlines (s : String) : List String :=
  match s.data with
  | [] => []
  | cs => splitNlAux [] cs

/-- Python `"\n".join(lines)`. -/
def joinLines (ls : List String) : String :=
  ⟨List.intercalate ['\n'] (ls.map String.data)⟩

/-- Python `s.replace("\n", " ")` (snippet flattening, dailymed.py 430). -/
def pyReplaceNl (s : String) : String :=
  ⟨s.data.map (fun c => if c = '\n' then ' ' else c)⟩

/-- Lexicographic (code-point) comparison of strings, Python `<`. -/
def strLtB : List Char → List Char → Bool
  | [], [] => false
  | [], _ :: _ => true
  | _ :: _, [] => false
  | a :: as, b :: bs => if a < b then true else if b < a then false else strLtB as bs

/-- One step of Python `sorted` on strings: insert into an ascending list. -/
def insertAsc (x : String) : List String → List String
  | [] => [x]
  | y :: ys => if strLtB y.data x.data then y :: insertAsc x ys else x :: y :: ys

/-- Python `sorted` on strings (ascending, code-point order). -/
def sortAsc : List String → List String
  | [] => []
  | x :: xs => insertAsc x (sortAsc xs)

/-- `(sections.get(name) or "").strip()` (dailymed.py lines 423-424): look a
section up in the map, defaulting to the empty string, and trim. -/
def lookupText (sections : List (String × String)) (name : String) : String :=
  pyStrip ((sections.lookup name).getD "")

/-- The per-section body of the summary loop of `get_label_changes`
(dailymed.py lines 422-456): the lines this section contributes, including
the trailing blank line. -/
def renderSection (old_sections current_sections : List (String × String))
    (name : String) : List String :=
  let old_text := lookupText old_sections name
  let new_text := lookupText current_sections name
  if old_text = new_text then []
  else
    [name] ++
    (if old_text.data.isEmpty then
      let snippet := pyReplaceNl (pyTake 1500 new_text)
      let snippet := if 1500 < pyLen new_text then snippet ++ "..." else snippet
      ["  Added in this version.", "  " ++ snippet]
    else if new_text.data.isEmpty then
      ["  Removed in this version."]
    else
      let ar := parse_unified_diff_to_added_removed
        ((pySplitlines old_text).take 200) ((pySplitlines new_text).take 200)
      (if !ar.2.isEmpty then
        ["  **Removed:**"] ++
        (ar.2.take 30).map (fun l => "  - " ++ pyTake 500 l) ++
        (if 30 < ar.2.length then
          ["  - ... and " ++ toString (ar.2.length - 30) ++ " more line(s)"]
        else []) ++ [""]
      else []) ++
      (if !ar.1.isEmpty then
        ["  **Added:**"] ++
        (ar.1.take 30).map (fun l => "  - " ++ pyTake 500 l) ++
        (if 30 < ar.1.length then
          ["  - ... and " ++ toString (ar.1.length - 30) ++ " more line(s)"]
        else []) else []) ++
      (if ar.1.isEmpty && ar.2.isEmpty then
        ["  (Content reflow or minor edits; no clear added/removed lines.)"]
      else [])) ++
    [""]

/-- `get_label_changes` (dailymed.py lines 396-458).  The network
collaborators are passed in: `history` is the `fetch_spl_history` result the
inner `get_previous_version` call consumes; `current_xml` the `fetch_spl_xml`
result; `zip_doc v` the document extracted from the `fetch_spl_zip(setid, v)`
archive (`none` when the fetch or the extraction failed).  The unused
`include_sections` parameter of the source (its `sections_to_use` is dead) is
omitted. -/
def get_label_changes (history : Option (List Nat)) (current_version : Nat)
    (current_xml : Option SplDoc) (zip_doc : Nat → Option SplDoc) : String :=
  match get_previous_version history current_version with
  | none => "No previous version available for comparison."
  | some prev_version =>
    let current_sections := parse_spl_sections current_xml
    let old_sections := parse_spl_sections (zip_doc prev_version)
    if current_sections.isEmpty && old_sections.isEmpty then
      "Could not retrieve label content for comparison (API may be temporarily unavailable)."
    else
      let all_names := sortAsc
        ((current_sections.map Prod.fst ++ old_sections.map Prod.fst).eraseDups)
      let lines := all_names.flatMap (renderSection old_sections current_sections)
      if lines.isEmpty then
        "No text changes detected in key sections (Warnings, Dosage, etc.)."
      else pyStrip (joinLines lines)

/-! ## `parse_label_date` — dailymed.py lines 98-122

`datetime.strptime` is modelled format by format at the precision of its
compiled regular expressions: `%Y` is exactly four digits; `%d`, `%m`, `%H`,
`%M`, `%S` are one or two digits with the pattern's ordered-alternation
semantics (two digits are consumed when they form a value the two-digit
alternatives accept, otherwise a single digit); `%a`/`%b` are case-insensitive
three-letter English abbreviations; whitespace in the format matches a
nonempty whitespace run; the whole string must be consumed; the final
`datetime(...)` construction validates the day against the month. -/

def digitVal (c : Char) : Nat := c.toNat - 48

/-- A one-or-two-digit numeric directive: two digits are taken when
`validTwo` accepts their value, else one digit accepted by `validOne`. -/
def parse2or1 (validTwo validOne : Nat → Bool) : List Char → Option (Nat × List Char)
  | c1 :: c2 :: rest =>
    if c1.isDigit && c2.isDigit && validTwo (digitVal c1 * 10 + digitVal c2) then
      some (digitVal c1 * 10 + digitVal c2, rest)
    else if c1.isDigit && validOne (digitVal c1) then
      some (digitVal c1, c2 :: rest)
    else none
  | [c1] =>
    if c1.isDigit && validOne (digitVal c1) then some (digitVal c1, []) else none
  | [] => none

/-- `%d`: `3[01]|[12]\d|0[1-9]|[1-9]`. -/
def parseDay : List Char → Option (Nat × List Char) :=
  parse2or1 (fun v => 1 ≤ v && v ≤ 31) (fun v => 1 ≤ v)

/-- `%m`: `1[0-2]|0[1-9]|[1-9]`. -/
def parseMonth : List Char → Option (Nat × List Char) :=
  parse2or1 (fun v => 1 ≤ v && v ≤ 12) (fun v => 1 ≤ v)

/-- `%H`: `2[0-3]|[0-1]\d|\d`. -/
def parseHour : List Char → Option (Nat × List Char) :=
  parse2or1 (fun v => v ≤ 23) (fun _ => true)

/-- `%M` / `%S`: `[0-5]\d|\d`. -/
def parseMinSec : List Char → Option (Nat × List Char) :=
  parse2or1 (fun v => v ≤ 59) (fun _ => true)

/-- `%Y`: exactly four digits. -/
def parseYear4 : List Char → Option (Nat × List Char)
  | a :: b :: c :: d :: rest =>
    if a.isDigit && b.isDigit && c.isDigit && d.isDigit then
      some (digitVal a * 1000 + digitVal b * 100 + digitVal c * 10 + digitVal d,
        rest)
    else none
  | _ => none

def monthAbbrs : List (String × Nat) :=
  [("jan", 1), ("feb", 2), ("mar", 3), ("apr", 4), ("may", 5), ("jun", 6),
   ("jul", 7), ("aug", 8), ("sep", 9), ("oct", 10), ("nov", 11), ("dec", 12)]

/-- `%b`: case-insensitive three-letter month abbreviation. -/
def parseMonthName : List Char → Option (Nat × List Char)
  | a :: b :: c :: rest =>
    match monthAbbrs.lookup ⟨[lowerChar a, lowerChar b, lowerChar c]⟩ with
    | some m => some (m, rest)
    | none => none
  | _ => none

def weekdayAbbrs : List String :=
  ["mon", "tue", "wed", "thu", "fri", "sat", "sun"]

/-- `%a`: case-insensitive three-letter weekday abbreviation (parsed but not
used for the constructed date, as in `strptime`). -/
def parseWeekday : List Char → Option (List Char)
  | a :: b :: c :: rest =>
    if weekdayAbbrs.contains (⟨[lowerChar a, lowerChar b, lowerChar c]⟩ : String) then
      some rest
    else none
  | _ => none

/-- Whitespace in a `strptime` format: one or more whitespace characters. -/
def skipWs1 : List Char → Option (List Char)
  | c :: cs => if isWs c then some (cs.dropWhile isWs) else none
  | [] => none

/-- An exact literal character of the format. -/
def expectChar (c : Char) : List Char → Option (List Char)
  | x :: xs => if x = c then some xs else none
  | [] => none

/-- `strptime(s, "%a, %d %b %Y %H:%M:%S").date()`. -/
def tryFmtRss (cs : List Char) : Option Date := do
  let r ← parseWeekday cs
  let r ← expectChar ',' r
  let r ← skipWs1 r
  let (d, r) ← parseDay r
  let r ← skipWs1 r
  let (m, r) ← parseMonthName r
  let r ← skipWs1 r
  let (y, r) ← parseYear4 r
  let r ← skipWs1 r
  let (_, r) ← parseHour r
  let r ← expectChar ':' r
  let (_, r) ← parseMinSec r
  let r ← expectChar ':' r
  let (_, r) ← parseMinSec r
  if r.isEmpty then mkDate y m d else none

/-- `strptime(s, "%Y-%m-%d").date()`. -/
def tryFmtIso (cs : List Char) : Option Date := do
  let (y, r) ← parseYear4 cs
  let r ← expectChar '-' r
  let (m, r) ← parseMonth r
  let r ← expectChar '-' r
  let (d, r) ← parseDay r
  if r.isEmpty then mkDate y m d else none

/-- `strptime(s, "%b %d, %Y").date()`. -/
def tryFmtMdy (cs : List Char) : Option Date := do
  let (m, r) ← parseMonthName cs
  let r ← skipWs1 r
  let (d, r) ← parseDay r
  let r ← expectChar ',' r
  let r ← skipWs1 r
  let (y, r) ← parseYear4 r
  if r.isEmpty then mkDate y m d else none

/-- `strptime(s, "%d %b %Y").date()`. -/
def tryFmtDmy (cs : List Char) : Option Date := do
  let (d, r) ← parseDay cs
  let r ← skipWs1 r
  let (m, r) ← parseMonthName r
  let r ← skipWs1 r
  let (y, r) ← parseYear4 r
  if r.isEmpty then mkDate y m d else none

def tzSuffixes : List String := [" EST", " EDT", " UTC", " PST", " PDT"]

/-- The timezone-suffix stripping of `parse_label_date` (dailymed.py lines
103-107): the first matching suffix is removed and the remainder trimmed. -/
def stripTz (s : String) : String :=
  match tzSuffixes.find? (fun tz => tz.data.isSuffixOf s.data) with
  | some tz => pyStrip ⟨s.data.take (s.data.length - tz.data.length)⟩
  | none => s

/-- `parse_label_date` (dailymed.py lines 98-122): strip, drop a trailing
timezone abbreviation, truncate to 30 characters, then try the four formats
in order; `none` when all fail. -/
def parse_label_date (date_str : String) : Option Date :=
  if date_str = "" then none
  else
    let s := stripTz (pyStrip date_str)
    let cs := s.data.take 30
    ((tryFmtRss cs).orElse fun _ =>
      (tryFmtIso cs).orElse fun _ =>
        (tryFmtMdy cs).orElse fun _ => tryFmtDmy cs)

/-! ## FilterPipeline — `apply_filters` (dailymed.py lines 189-269) -/

/-- `LabelUpdate` dataclass (dailymed.py lines 32-40). -/
structure LabelUpdate where
  title : String
  link : String
  setid : String
  version : Nat
  updated_date : String
  pub_date : String
deriving DecidableEq, Repr

/-- `u.updated_date or u.pub_date` (dailymed.py line 213): Python `or` takes
the published date only when the updated date is the empty string. -/
def effectiveDateStr (u : LabelUpdate) : String :=
  if u.updated_date ≠ "" then u.updated_date else u.pub_date

/-- The body of the date-range stage (dailymed.py lines 212-225): a record
with an unparseable date is always kept; a parsed date is kept iff it is
within the inclusive bounds that are set. -/
def dateKeep (date_start date_end : Option Date) (u : LabelUpdate) : Bool :=
  match parse_label_date (effectiveDateStr u) with
  | none => true
  | some d =>
    !(match date_start with | some s => dateLt d s | none => false) &&
    !(match date_end with | some e => dateLt e d | none => false)

/-- The keyword / manufacturer stage predicate (dailymed.py lines 249, 262):
case-insensitive substring match against the title. -/
def titleContains (needle : String) (u : LabelUpdate) : Bool :=
  pyContains (pyLower u.title) needle

/-- The filtering loop shared by every stage of `apply_filters` (e.g. lines
210-225): walk the records, keeping each record that passes together with its
positionally-paired auxiliary text (`texts[i]`, modelled by the parallel
traversal; the pipeline establishes `len(texts) == len(result)` before any
stage runs). -/
def stageFilterAux (keep : LabelUpdate → Bool) :
    List LabelUpdate → List String → List LabelUpdate × List String
  | [], _ => ([], [])
  | u :: us, ts =>
    let rest := stageFilterAux keep us ts.tail
    if keep u then (u :: rest.1, ts.headD "" :: rest.2) else rest

/-- One filtering stage: `filtered_texts = [] if texts else None` (Python
truthiness — a present-but-empty auxiliary list degrades to `None`), then the
loop. -/
def stageFilter (keep : LabelUpdate → Bool) (result : List LabelUpdate)
    (texts : Option (List String)) :
    List LabelUpdate × Option (List String) :=
  match texts with
  | some (t :: ts) =>
    let r := stageFilterAux keep result (t :: ts)
    (r.1, some r.2)
  | _ => (result.filter keep, none)

/-- A stage guarded by its activation condition (`if date_start is not None
or ...`, `if keyword:`, `if manufacturer:`). -/
def condStage (cond : Bool) (keep : LabelUpdate → Bool)
    (p : List LabelUpdate × Option (List String)) :
    List LabelUpdate × Option (List String) :=
  if cond then stageFilter keep p.1 p.2 else p

/-- The drug-class stage (dailymed.py lines 229-242).  `fetched` is what the
`fetch_spl_setids_for_drug_class` network collaborator would return; it is
consulted only when a class code is supplied and the supplied setid set is
falsy.  An empty resulting `allowed` set skips the stage entirely. -/
def classStage (codeTruthy : Bool) (setids : Option (List String))
    (fetched : List String) (p : List LabelUpdate × Option (List String)) :
    List LabelUpdate × Option (List String) :=
  if codeTruthy || setids.isSome then
    let allowed := setids.getD []
    let allowed := if codeTruthy && allowed.isEmpty then fetched else allowed
    if !allowed.isEmpty then
      stageFilter (fun u => allowed.contains u.setid) p.1 p.2
    else p
  else p

/-- The auxiliary-sequence normalization (dailymed.py lines 206-207):
`(texts + [""] * len(result))[:len(result)]` when the lengths differ. -/
def normalizeTexts (n : Nat) (ts : List String) : List String :=
  if ts.length ≠ n then (ts ++ List.replicate n "").take n else ts

/-- `apply_filters` (dailymed.py lines 189-269): normalize the auxiliary
sequence, then apply the date-range, drug-class, keyword and manufacturer
stages in order, each keeping records and auxiliary entries in lockstep. -/
def apply_filters (records : List LabelUpdate)
    (date_start date_end : Option Date)
    (drug_class_code : Option String) (drug_class_setids : Option (List String))
    (keyword manufacturer : Option String)
    (change_texts : Option (List String))
    (fetched_class_setids : List String) :
    List LabelUpdate × Option (List String) :=
  let texts := change_texts.map (normalizeTexts records.length)
  let p := (records, texts)
  let p := condStage (date_start.isSome || date_end.isSome)
    (dateKeep date_start date_end) p
  let p := classStage ((drug_class_code.getD "") ≠ "") drug_class_setids
    fetched_class_setids p
  let kw := pyLower (pyStrip (keyword.getD ""))
  let p := condStage (kw ≠ "") (titleContains kw) p
  let mf := pyLower (pyStrip (manufacturer.getD ""))
  let p := condStage (mf ≠ "") (titleContains mf) p
  p

/-! ## Claim theorems C1-C3 -/

/-- C1: `cross_validate_dailymed_vs_fda` decides its outcome by testing the
five cases in exactly this priority order: (1) independent result absent →
"not queried" with unknown lag; (2) record not found → "no record found" with
unknown lag; (3) effective date failed to parse → message carrying the raw
value, unknown lag; (4) FDA date present but DailyMed date absent → message
stating only the FDA date, unknown lag; (5) both dates present → numeric lag.
In particular any primary date with `fda_info = none` yields unknown lag, and
equal dates yield lag 0 with an "in sync" message containing that date. -/
theorem crossValidate_priority_order :
    (∀ dm : Option LabelWatch.Date,
      LabelWatch.cross_validate_dailymed_vs_fda dm none =
        ("FDA (openFDA): not queried", none)) ∧
    (∀ (dm : Option LabelWatch.Date) (info : LabelWatch.FDALabelInfo),
      info.found = false →
      LabelWatch.cross_validate_dailymed_vs_fda dm (some info) =
        ("FDA (openFDA): no record found for this set ID", none)) ∧
    (∀ (dm : Option LabelWatch.Date) (info : LabelWatch.FDALabelInfo),
      info.found = true → info.effective_date = none →
      LabelWatch.cross_validate_dailymed_vs_fda dm (some info) =
        ("FDA (openFDA): effective date not parsed (raw: " ++
          info.effective_time_raw ++ ")", none)) ∧
    (∀ (info : LabelWatch.FDALabelInfo) (fd : LabelWatch.Date),
      info.found = true → info.effective_date = some fd →
      LabelWatch.cross_validate_dailymed_vs_fda none (some info) =
        ("FDA effective date: " ++ fd.isoformat ++ " (DailyMed date unknown)",
          none)) ∧
    (∀ (info : LabelWatch.FDALabelInfo) (d : LabelWatch.Date),
      info.found = true → info.effective_date = some d →
      LabelWatch.cross_validate_dailymed_vs_fda (some d) (some info) =
        ("FDA (openFDA): in sync — effective " ++ d.isoformat, some 0)) := by
  refine ⟨fun dm => rfl, ?_, ?_, ?_, ?_⟩
  · intro dm info hf
    simp [LabelWatch.cross_validate_dailymed_vs_fda, hf]
  · intro dm info hf he
    simp [LabelWatch.cross_validate_dailymed_vs_fda, hf, he]
  · intro info fd hf he
    simp [LabelWatch.cross_validate_dailymed_vs_fda, hf, he]
  · intro info d hf he
    simp [LabelWatch.cross_validate_dailymed_vs_fda, hf, he]

/-- C1 witness: the priority-order theorem applied at concrete inputs. -/
theorem crossValidate_priority_order_witness :
    (LabelWatch.cross_validate_dailymed_vs_fda (some ⟨2024, 3, 10⟩) none =
      ("FDA (openFDA): not queried", none)) ∧
    (LabelWatch.cross_validate_dailymed_vs_fda (some ⟨2024, 3, 10⟩)
        (some ⟨"abc", none, "", false⟩) =
      ("FDA (openFDA): no record found for this set ID", none)) ∧
    (LabelWatch.cross_validate_dailymed_vs_fda (some ⟨2024, 3, 10⟩)
        (some ⟨"abc", none, "garbled", true⟩) =
      ("FDA (openFDA): effective date not parsed (raw: garbled)", none)) ∧
    (LabelWatch.cross_validate_dailymed_vs_fda none
        (some ⟨"abc", some ⟨2024, 3, 5⟩, "20240305", true⟩) =
      ("FDA effective date: 2024-03-05 (DailyMed date unknown)", none)) ∧
    (LabelWatch.cross_validate_dailymed_vs_fda (some ⟨2024, 3, 5⟩)
        (some ⟨"abc", some ⟨2024, 3, 5⟩, "20240305", true⟩) =
      ("FDA (openFDA): in sync — effective 2024-03-05", some 0)) := by
  refine ⟨crossValidate_priority_order.1 _,
    crossValidate_priority_order.2.1 _ ⟨"abc", none, "", false⟩ rfl,
    crossValidate_priority_order.2.2.1 _ ⟨"abc", none, "garbled", true⟩ rfl rfl,
    ?_, ?_⟩
  · have h := crossValidate_priority_order.2.2.2.1
      ⟨"abc", some ⟨2024, 3, 5⟩, "20240305", true⟩ ⟨2024, 3, 5⟩ rfl rfl
    simpa using h
  · have h := crossValidate_priority_order.2.2.2.2
      ⟨"abc", some ⟨2024, 3, 5⟩, "20240305", true⟩ ⟨2024, 3, 5⟩ rfl rfl
    simpa using h

/-- C2: with both dates present, lag = (primary date − independent date) in
whole days; lag > 0 reports the primary source `lag` day(s) ahead, lag < 0
reports the independent source `-lag` day(s) ahead, lag = 0 reports "in sync";
and the concrete pair 2024-03-10 vs 2024-03-05 yields lag = +5 with a
"DailyMed 5 day(s) ahead" message. -/
theorem crossValidate_sign_convention :
    (∀ (dm fd : LabelWatch.Date) (info : LabelWatch.FDALabelInfo),
      info.found = true → info.effective_date = some fd →
      LabelWatch.cross_validate_dailymed_vs_fda (some dm) (some info) =
        (let lag : Int := (dm.toOrdinal : Int) - (fd.toOrdinal : Int)
         if lag = 0 then
           ("FDA (openFDA): in sync — effective " ++ fd.isoformat, some 0)
         else if 0 < lag then
           ("FDA (openFDA): DailyMed " ++ toString lag ++
             " day(s) ahead — FDA effective " ++ fd.isoformat, some lag)
         else
           ("FDA (openFDA): FDA " ++ toString (-lag) ++
             " day(s) ahead — FDA effective " ++ fd.isoformat, some lag))) ∧
    (LabelWatch.cross_validate_dailymed_vs_fda (some ⟨2024, 3, 10⟩)
        (some ⟨"abc", some ⟨2024, 3, 5⟩, "20240305", true⟩) =
      ("FDA (openFDA): DailyMed 5 day(s) ahead — FDA effective 2024-03-05",
        some 5)) := by
  constructor
  · intro dm fd info hf he
    simp only [LabelWatch.cross_validate_dailymed_vs_fda, hf, he,
      Bool.not_true, Bool.false_eq_true, if_false, gt_iff_lt]
  · decide

/-- C2 witness: the sign-convention theorem applied at concrete dates with a
negative lag (FDA ahead), discharging its hypotheses there. -/
theorem crossValidate_sign_convention_witness :
    LabelWatch.cross_validate_dailymed_vs_fda (some ⟨2024, 3, 5⟩)
        (some ⟨"abc", some ⟨2024, 3, 10⟩, "20240310", true⟩) =
      ("FDA (openFDA): FDA 5 day(s) ahead — FDA effective 2024-03-10",
        some (-5)) := by
  have h := crossValidate_sign_convention.1 ⟨2024, 3, 5⟩ ⟨2024, 3, 10⟩
    ⟨"abc", some ⟨2024, 3, 10⟩, "20240310", true⟩ rfl rfl
  rw [h]
  decide

/-- C3: `get_previous_version` returns the largest version number strictly
less than the current version when one exists, and `none` when the history is
unavailable or the current version is the minimum of the history; on history
{1,2,3,5} with current version 5 it returns 3, skipping the gap at 4. -/
theorem getPreviousVersion_closest_strictly_lesser :
    (∀ c : Nat, LabelWatch.get_previous_version none c = none) ∧
    (∀ (hs : List Nat) (c : Nat), (∀ v ∈ hs, c ≤ v) →
      LabelWatch.get_previous_version (some hs) c = none) ∧
    (∀ (hs : List Nat) (c v : Nat), v ∈ hs → v < c →
      ∃ m, LabelWatch.get_previous_version (some hs) c = some m ∧
        m ∈ hs ∧ m < c ∧ ∀ w ∈ hs, w < c → w ≤ m) ∧
    (LabelWatch.get_previous_version (some [1, 2, 3, 5]) 5 = some 3) := by
  refine ⟨fun c => rfl, ?_, ?_, by decide⟩
  · intro hs c hmin
    simp only [LabelWatch.get_previous_version]
    rw [List.find?_eq_none]
    intro w hw
    have : w ∈ hs := LabelWatch.mem_sortDesc.mp hw
    have := hmin w this
    simp; omega
  · intro hs c v hv hvc
    simp only [LabelWatch.get_previous_version]
    cases hfind : (LabelWatch.sortDesc hs).find? (fun w => decide (w < c)) with
    | none =>
      rw [List.find?_eq_none] at hfind
      have := hfind v (LabelWatch.mem_sortDesc.mpr hv)
      simp at this
      omega
    | some m =>
      obtain ⟨hmem, hlt, hmax⟩ :=
        LabelWatch.find_lt_is_max (LabelWatch.sorted_sortDesc hs) hfind
      exact ⟨m, rfl, LabelWatch.mem_sortDesc.mp hmem, hlt,
        fun w hw hwc => hmax w (LabelWatch.mem_sortDesc.mpr hw) hwc⟩

/-- C3 witness: the resolver theorem applied at concrete histories,
discharging each hypothesis. -/
theorem getPreviousVersion_closest_strictly_lesser_witness :
    (LabelWatch.get_previous_version (some [3, 4, 7]) 3 = none) ∧
    (LabelWatch.get_previous_version (some [1, 2, 3, 5]) 5 = some 3) := by
  constructor
  · exact getPreviousVersion_closest_strictly_lesser.2.1 [3, 4, 7] 3
      (by decide)
  · obtain ⟨m, hm, hmem, hlt, hmax⟩ :=
      getPreviousVersion_closest_strictly_lesser.2.2.1 [1, 2, 3, 5] 5 3
        (by decide) (by decide)
    have h3 := hmax 3 (by decide) (by decide)
    simp only [List.mem_cons, List.not_mem_nil, or_false] at hmem
    have hm3 : m = 3 := by rcases hmem with h | h | h | h <;> omega
    rw [hm3] at hm
    exact hm

/-! ## Claim theorems C4, C5, C8 -/

theorem lcs_self (ls : List String) : lcs ls ls = ls := by
  induction ls with
  | nil => rw [lcs]
  | cons x xs ih => rw [lcs]; simp [ih]

theorem removeSubseq_self (ls : List String) : removeSubseq ls ls = [] := by
  induction ls with
  | nil => rfl
  | cons x xs ih => simp [removeSubseq, ih]

/-- The SectionMap entry produced by `parse_spl_sections` for a tracked
section is exactly the post-processed result of the section-location loop:
absent precisely when no matching section carries a text node, and the
processed text otherwise. -/
theorem parse_spl_sections_lookup (doc : SplDoc) :
    ∀ cn ∈ SPL_SECTION_CODES,
      (parse_spl_sections (some doc)).lookup cn.2 =
        (findSectionText doc cn.1).map
          (fun raw => pyTake 8000 (stripHtmlToText raw)) := by
  intro cn hcn
  simp only [SPL_SECTION_CODES, List.mem_cons, List.not_mem_nil, or_false] at hcn
  rcases hcn with h | h | h | h <;> subst h <;>
    simp only [parse_spl_sections, SPL_SECTION_CODES] <;>
    cases h1 : findSectionText doc "34067-9" <;>
    cases h2 : findSectionText doc "34068-7" <;>
    cases h3 : findSectionText doc "43685-7" <;>
    cases h4 : findSectionText doc "42232-9" <;>
    simp [List.filterMap_cons, h1, h2, h3, h4, List.lookup]

/-- C4: when the version resolver yields no previous version,
`get_label_changes` returns exactly the sentinel string and consults neither
DocumentFetcher collaborator: the result is the same for every current-XML
fetch result and every archived-version fetch result. -/
theorem getLabelChanges_no_previous_version :
    (∀ (history : Option (List Nat)) (c : Nat) (xml : Option SplDoc)
        (zipf : Nat → Option SplDoc),
      get_previous_version history c = none →
      get_label_changes history c xml zipf =
        "No previous version available for comparison.") ∧
    (∀ (history : Option (List Nat)) (c : Nat) (x₁ x₂ : Option SplDoc)
        (z₁ z₂ : Nat → Option SplDoc),
      get_previous_version history c = none →
      get_label_changes history c x₁ z₁ = get_label_changes history c x₂ z₂) := by
  have key : ∀ (history : Option (List Nat)) (c : Nat) (xml : Option SplDoc)
      (zipf : Nat → Option SplDoc),
      get_previous_version history c = none →
      get_label_changes history c xml zipf =
        "No previous version available for comparison." := by
    intro history c xml zipf h
    simp only [get_label_changes, h]
  exact ⟨key, fun history c x₁ x₂ z₁ z₂ h => by rw [key _ _ _ _ h, key _ _ _ _ h]⟩

/-- C4 witness: a record with current version 5 whose history lookup found
nothing yields the sentinel, with concrete fetchers supplied that would have
returned content had they been consulted. -/
theorem getLabelChanges_no_previous_version_witness :
    get_label_changes none 5 (some [⟨"34067-9", some "text"⟩])
        (fun _ => some [⟨"34067-9", some "old text"⟩]) =
      "No previous version available for comparison." :=
  getLabelChanges_no_previous_version.1 none 5 _ _ (by decide)

/-- C5 counterexample: the extractor does distinguish the two cases in its
output (key absent vs key mapped to `""`), but key absence versus presence
does **not** govern the "Added in this version" messaging — a previous
version whose Warnings section is present with an empty text node produces
exactly the same "Added in this version." summary as one lacking the section
altogether, because `get_label_changes` reads both through
`(sections.get(name) or "").strip()`. -/
theorem sectionExtractor_absent_vs_empty_counterexample :
    ((parse_spl_sections (some [⟨"34067-9", some ""⟩])).lookup
        "Warnings and Precautions" = some "") ∧
    ((parse_spl_sections (some ([] : SplDoc))).lookup
        "Warnings and Precautions" = none) ∧
    (get_label_changes (some [1, 2]) 2 (some [⟨"34067-9", some "New warning text"⟩])
        (fun _ => some [⟨"34067-9", some ""⟩]) =
      "Warnings and Precautions\n  Added in this version.\n  New warning text") ∧
    (get_label_changes (some [1, 2]) 2 (some [⟨"34067-9", some "New warning text"⟩])
        (fun _ => some ([] : SplDoc)) =
      "Warnings and Precautions\n  Added in this version.\n  New warning text") := by
  refine ⟨by decide, by decide, by decide, by decide⟩

/-- C5 amended: `parse_spl_sections` leaves the key absent when no matching
section carries a text node and maps it to `""` when the located text node is
empty — the two outputs are distinguishable in the SectionMap; however, the
downstream "Added/Removed in this version" messaging is governed by emptiness
of the trimmed looked-up text, not by key presence: `renderSection` depends
only on the looked-up trimmed texts, reporting "Added in this version." when
the old text is empty (absent key or empty string alike) and the new one is
not, and "Removed in this version." in the symmetric case. -/
theorem sectionExtractor_absent_vs_empty_amended :
    (∀ (doc : SplDoc), ∀ cn ∈ SPL_SECTION_CODES,
      (∀ s ∈ doc, s.code ≠ cn.1) →
      (parse_spl_sections (some doc)).lookup cn.2 = none) ∧
    (∀ (doc : SplDoc), ∀ cn ∈ SPL_SECTION_CODES,
      findSectionText doc cn.1 = some "" →
      (parse_spl_sections (some doc)).lookup cn.2 = some "") ∧
    (∀ old_s old_s' new_s new_s' name,
      lookupText old_s name = lookupText old_s' name →
      lookupText new_s name = lookupText new_s' name →
      renderSection old_s new_s name = renderSection old_s' new_s' name) ∧
    (∀ old_s new_s name,
      lookupText old_s name = "" → lookupText new_s name ≠ "" →
      "  Added in this version." ∈ renderSection old_s new_s name) ∧
    (∀ old_s new_s name,
      lookupText old_s name ≠ "" → lookupText new_s name = "" →
      renderSection old_s new_s name =
        [name, "  Removed in this version.", ""]) := by
  refine ⟨?_, ?_, ?_, ?_, ?_⟩
  · intro doc cn hcn hnone
    rw [parse_spl_sections_lookup doc cn hcn]
    have : findSectionText doc cn.1 = none := by
      simp only [findSectionText]
      have : doc.filter (fun s => s.code == cn.1) = [] := by
        rw [List.filter_eq_nil_iff]
        intro s hs
        simpa using hnone s hs
      rw [this]; rfl
    rw [this]; rfl
  · intro doc cn hcn hfound
    rw [parse_spl_sections_lookup doc cn hcn, hfound]
    rfl
  · intro old_s old_s' new_s new_s' name h₁ h₂
    simp only [renderSection, h₁, h₂]
  · intro old_s new_s name h₁ h₂
    simp only [renderSection, h₁]
    rw [if_neg (by exact fun h => h₂ h.symm)]
    simp
  · intro old_s new_s name h₁ h₂
    simp only [renderSection, h₂]
    rw [if_neg h₁]
    have hne : ¬((lookupText old_s name).data.isEmpty = true) := by
      intro hie
      exact h₁ (String.ext (by simpa using hie))
    rw [if_neg hne]
    simp

/-- C5 amended witness: the amended theorem applied at concrete documents and
section maps, discharging each hypothesis. -/
theorem sectionExtractor_absent_vs_empty_amended_witness :
    ((parse_spl_sections (some [⟨"34068-7", some "Dose"⟩])).lookup
        "Warnings and Precautions" = none) ∧
    ((parse_spl_sections (some [⟨"34067-9", some ""⟩])).lookup
        "Warnings and Precautions" = some "") ∧
    (renderSection [("Warnings and Precautions", "")] [("Warnings and Precautions", "x")]
        "Warnings and Precautions" =
      renderSection [] [("Warnings and Precautions", "x")]
        "Warnings and Precautions") ∧
    ("  Added in this version." ∈
      renderSection [("Warnings and Precautions", "")]
        [("Warnings and Precautions", "x")] "Warnings and Precautions") ∧
    (renderSection [("Contraindications", "old")] [] "Contraindications" =
      ["Contraindications", "  Removed in this version.", ""]) := by
  refine ⟨?_, ?_, ?_, ?_, ?_⟩
  · exact sectionExtractor_absent_vs_empty_amended.1 [⟨"34068-7", some "Dose"⟩]
      ("34067-9", "Warnings and Precautions") (by decide) (by decide)
  · exact sectionExtractor_absent_vs_empty_amended.2.1 [⟨"34067-9", some ""⟩]
      ("34067-9", "Warnings and Precautions") (by decide) (by decide)
  · exact sectionExtractor_absent_vs_empty_amended.2.2.1 _ _ _ _ _
      (by decide) (by decide)
  · exact sectionExtractor_absent_vs_empty_amended.2.2.2.1 _ _ _
      (by decide) (by decide)
  · exact sectionExtractor_absent_vs_empty_amended.2.2.2.2 _ _ _
      (by decide) (by decide)

/-- C8: on identical inputs (equal after trimming), the diff reports zero
added and zero removed lines, and a section whose two texts agree after
trimming contributes nothing to the rendered change summary (it is omitted:
`get_label_changes` concatenates exactly the `renderSection` outputs). -/
theorem diffEngine_identical_inputs :
    (∀ ls : List String, parse_unified_diff_to_added_removed ls ls = ([], [])) ∧
    (∀ old_s new_s name,
      lookupText old_s name = lookupText new_s name →
      renderSection old_s new_s name = []) := by
  constructor
  · intro ls
    simp [parse_unified_diff_to_added_removed, lcs_self, removeSubseq_self]
  · intro old_s new_s name h
    simp only [renderSection, h, if_pos]

/-- C8 witness: the theorem applied to a concrete line list and to concrete
section maps whose texts agree after trimming. -/
theorem diffEngine_identical_inputs_witness :
    (parse_unified_diff_to_added_removed ["alpha", "beta"] ["alpha", "beta"] =
      ([], [])) ∧
    (renderSection [("Contraindications", "x")] [("Contraindications", " x ")]
        "Contraindications" = []) :=
  ⟨diffEngine_identical_inputs.1 _,
   diffEngine_identical_inputs.2 _ _ _ (by decide)⟩

/-! ## FilterPipeline lemmas and claim theorems C6, C7, C9, C10 -/

theorem stageFilterAux_fst (keep : LabelUpdate → Bool) :
    ∀ (rs : List LabelUpdate) (ts : List String),
      (stageFilterAux keep rs ts).1 = rs.filter keep := by
  intro rs
  induction rs with
  | nil => intro ts; rfl
  | cons u us ih =>
    intro ts
    simp only [stageFilterAux, List.filter_cons]
    cases hk : keep u <;> simp [hk, ih]

theorem stageFilterAux_len (keep : LabelUpdate → Bool) :
    ∀ (rs : List LabelUpdate) (ts : List String),
      (stageFilterAux keep rs ts).2.length = (stageFilterAux keep rs ts).1.length := by
  intro rs
  induction rs with
  | nil => intro ts; rfl
  | cons u us ih =>
    intro ts
    simp only [stageFilterAux]
    cases hk : keep u <;> simp [hk, ih]

theorem stageFilterAux_zip (keep : LabelUpdate → Bool) :
    ∀ (rs : List LabelUpdate) (ts : List String), ts.length = rs.length →
      ((stageFilterAux keep rs ts).1.zip (stageFilterAux keep rs ts).2).Sublist
        (rs.zip ts) := by
  intro rs
  induction rs with
  | nil => intro ts _; simp [stageFilterAux]
  | cons u us ih =>
    intro ts hlen
    cases ts with
    | nil => simp at hlen
    | cons t ts' =>
      simp only [stageFilterAux, List.tail_cons, List.headD_cons]
      cases hk : keep u
      · simp only [hk, Bool.false_eq_true, if_false, List.zip_cons_cons]
        exact (ih ts' (by simpa using hlen)).cons _
      · simp only [hk, if_true, List.zip_cons_cons]
        exact (ih ts' (by simpa using hlen)).cons₂ _

theorem stageFilter_fst (keep : LabelUpdate → Bool) (rs : List LabelUpdate)
    (t : Option (List String)) :
    (stageFilter keep rs t).1 = rs.filter keep := by
  match t with
  | none => rfl
  | some [] => rfl
  | some (x :: xs) => simp [stageFilter, stageFilterAux_fst]

theorem condStage_fst (c : Bool) (keep : LabelUpdate → Bool)
    (p : List LabelUpdate × Option (List String)) :
    (condStage c keep p).1 = if c then p.1.filter keep else p.1 := by
  cases c <;> simp [condStage, stageFilter_fst]

/-- Alignment invariant carried through the pipeline: either the auxiliary
sequence is a list of the same length whose pairing with the kept records is
a sublist of the original pairing, or it has degraded to `none` (Python empty
list falsiness) and the record list is empty as well. -/
def Aligned (rs0 : List LabelUpdate) (ts0 : List String)
    (p : List LabelUpdate × Option (List String)) : Prop :=
  (∃ l, p.2 = some l ∧ l.length = p.1.length ∧
    (p.1.zip l).Sublist (rs0.zip ts0)) ∨
  (p.2 = none ∧ p.1 = [])

theorem stageFilter_aligned (keep : LabelUpdate → Bool)
    {rs0 : List LabelUpdate} {ts0 : List String} {rs : List LabelUpdate}
    {t : Option (List String)} (h : Aligned rs0 ts0 (rs, t)) :
    Aligned rs0 ts0 (stageFilter keep rs t) := by
  rcases h with ⟨l, ht, hlen, hsub⟩ | ⟨ht, hrs⟩
  · subst ht
    cases l with
    | nil =>
      have : rs = [] := by simpa using hlen.symm
      subst this
      exact Or.inr ⟨rfl, rfl⟩
    | cons x xs =>
      refine Or.inl ⟨(stageFilterAux keep rs (x :: xs)).2, rfl,
        stageFilterAux_len keep rs (x :: xs), ?_⟩
      exact (stageFilterAux_zip keep rs (x :: xs)
        (by simpa using hlen)).trans hsub
  · subst ht; subst hrs
    exact Or.inr ⟨rfl, rfl⟩

theorem condStage_aligned (c : Bool) (keep : LabelUpdate → Bool)
    {rs0 : List LabelUpdate} {ts0 : List String}
    {p : List LabelUpdate × Option (List String)}
    (h : Aligned rs0 ts0 p) : Aligned rs0 ts0 (condStage c keep p) := by
  cases c
  · simpa [condStage] using h
  · obtain ⟨rs, t⟩ := p
    simpa [condStage] using stageFilter_aligned keep h

theorem classStage_aligned (codeTruthy : Bool) (setids : Option (List String))
    (fetched : List String) {rs0 : List LabelUpdate} {ts0 : List String}
    {p : List LabelUpdate × Option (List String)}
    (h : Aligned rs0 ts0 p) : Aligned rs0 ts0 (classStage codeTruthy setids fetched p) := by
  obtain ⟨rs, t⟩ := p
  simp only [classStage]
  split_ifs <;> first | exact stageFilter_aligned _ h | exact h

theorem normalizeTexts_length (n : Nat) (ts : List String) :
    (normalizeTexts n ts).length = n := by
  simp only [normalizeTexts]
  split
  · simp only [List.length_take, List.length_append, List.length_replicate]
    omega
  · omega

/-- Alignment holds for the full pipeline against the normalized auxiliary
sequence, for every combination of criteria. -/
theorem apply_filters_aligned (records : List LabelUpdate)
    (date_start date_end : Option Date) (code : Option String)
    (setids : Option (List String)) (kw mf : Option String)
    (ct : List String) (fetched : List String) :
    Aligned records (normalizeTexts records.length ct)
      (apply_filters records date_start date_end code setids kw mf (some ct)
        fetched) := by
  have h0 : Aligned records (normalizeTexts records.length ct)
      (records, some (normalizeTexts records.length ct)) :=
    Or.inl ⟨_, rfl, normalizeTexts_length _ _, List.Sublist.refl _⟩
  have h1 := condStage_aligned (date_start.isSome || date_end.isSome)
    (dateKeep date_start date_end) h0
  have h2 := classStage_aligned ((code.getD "") ≠ "") setids fetched h1
  have h3 := condStage_aligned (pyLower (pyStrip (kw.getD "")) ≠ "")
    (titleContains (pyLower (pyStrip (kw.getD "")))) h2
  have h4 := condStage_aligned (pyLower (pyStrip (mf.getD "")) ≠ "")
    (titleContains (pyLower (pyStrip (mf.getD "")))) h3
  simpa [apply_filters] using h4

/-- C6 counterexample: with a record list and an auxiliary list of equal
lengths (one each) and two active criteria, the date stage drops the only
record leaving the auxiliary list empty, and the next stage's Python
truthiness test (`[] if texts else None`) degrades it to `None`: the pipeline
returns `([], none)` — not a pair of equal-length lists as the claim
states. -/
theorem applyFilters_alignment_counterexample :
    apply_filters [⟨"Drug A", "", "sidA", 1, "2024-03-09", ""⟩]
      (some ⟨2024, 3, 1⟩) (some ⟨2024, 3, 7⟩) none none (some "x") none
      (some ["A"]) [] = ([], none) := by
  decide

/-- C6 amended: for every record list with an equal-length auxiliary list and
every criteria combination, whenever the pipeline returns an auxiliary list
it has exactly the kept records' length and its entries are exactly the ones
paired with the kept records (the kept pairs form a sublist of the input
pairs); the only deviation from the claim is that when every record has been
dropped the auxiliary result may degrade to the `None` marker instead of an
empty list (Python empty-list falsiness at a later active stage). -/
theorem applyFilters_alignment_amended (records : List LabelUpdate)
    (ct : List String) (date_start date_end : Option Date)
    (code : Option String) (setids : Option (List String))
    (kw mf : Option String) (fetched : List String)
    (hlen : ct.length = records.length) :
    (∀ l, (apply_filters records date_start date_end code setids kw mf
        (some ct) fetched).2 = some l →
      l.length = (apply_filters records date_start date_end code setids kw mf
        (some ct) fetched).1.length ∧
      ((apply_filters records date_start date_end code setids kw mf
        (some ct) fetched).1.zip l).Sublist (records.zip ct)) ∧
    ((apply_filters records date_start date_end code setids kw mf
        (some ct) fetched).2 = none →
      (apply_filters records date_start date_end code setids kw mf
        (some ct) fetched).1 = []) := by
  have hnorm : normalizeTexts records.length ct = ct := by
    simp [normalizeTexts, hlen]
  have h := apply_filters_aligned records date_start date_end code setids kw mf
    ct fetched
  rw [hnorm] at h
  rcases h with ⟨l, hl, hlen', hsub⟩ | ⟨hnone, hnil⟩
  · refine ⟨?_, ?_⟩
    · intro l' hl'
      rw [hl] at hl'
      injection hl' with hl'
      subst hl'
      exact ⟨hlen', hsub⟩
    · intro hn
      rw [hl] at hn
      cases hn
  · refine ⟨?_, ?_⟩
    · intro l' hl'
      rw [hnone] at hl'
      cases hl'
    · intro _
      exact hnil

/-- C6 amended witness: the amended theorem applied at a concrete batch where
one record survives, discharging the equal-length hypothesis and the
some-auxiliary premise at the concrete output. -/
theorem applyFilters_alignment_amended_witness :
    (["B"] : List String).length =
      (apply_filters
        [⟨"Drug A", "", "sidA", 1, "2024-03-09", ""⟩,
         ⟨"Drug B", "", "sidB", 1, "garbage", ""⟩]
        (some ⟨2024, 3, 1⟩) (some ⟨2024, 3, 7⟩) none none none none
        (some ["A", "B"]) []).1.length ∧
    ((apply_filters
        [⟨"Drug A", "", "sidA", 1, "2024-03-09", ""⟩,
         ⟨"Drug B", "", "sidB", 1, "garbage", ""⟩]
        (some ⟨2024, 3, 1⟩) (some ⟨2024, 3, 7⟩) none none none none
        (some ["A", "B"]) []).1.zip ["B"]).Sublist
      ([⟨"Drug A", "", "sidA", 1, "2024-03-09", ""⟩,
        ⟨"Drug B", "", "sidB", 1, "garbage", ""⟩].zip ["A", "B"]) :=
  (applyFilters_alignment_amended
    [⟨"Drug A", "", "sidA", 1, "2024-03-09", ""⟩,
     ⟨"Drug B", "", "sidB", 1, "garbage", ""⟩]
    ["A", "B"] (some ⟨2024, 3, 1⟩) (some ⟨2024, 3, 7⟩) none none none none []
    (by decide)).1 ["B"] (by decide)

theorem dateKeep_none_none (u : LabelUpdate) : dateKeep none none u = true := by
  unfold dateKeep
  cases hp : parse_label_date (effectiveDateStr u) <;> simp [hp]

theorem condStage_false {c : Bool} (hc : c = false) (keep : LabelUpdate → Bool)
    (p : List LabelUpdate × Option (List String)) : condStage c keep p = p := by
  simp [condStage, hc]

theorem condStage_true {c : Bool} (hc : c = true) (keep : LabelUpdate → Bool)
    (p : List LabelUpdate × Option (List String)) :
    condStage c keep p = stageFilter keep p.1 p.2 := by
  simp [condStage, hc]

theorem classStage_inactive {c : Bool} (hc : c = false) (fetched : List String)
    (p : List LabelUpdate × Option (List String)) :
    classStage c none fetched p = p := by
  simp [classStage, hc]

/-- The date-range stage keeps exactly the records accepted by `dateKeep`,
whether or not a bound is set (with no bound set the stage is skipped, and
`dateKeep` accepts everything). -/
theorem condStage_date_fst (records : List LabelUpdate)
    (ds de : Option Date) (t : Option (List String)) :
    (condStage (ds.isSome || de.isSome) (dateKeep ds de) (records, t)).1 =
      records.filter (dateKeep ds de) := by
  rw [condStage_fst]
  cases ds <;> cases de <;>
    simp [List.filter_eq_self.mpr (fun u _ => dateKeep_none_none u)]

/-- C7: a date-range filter never drops a record whose date string is
unparseable, drops records whose parsed date falls outside the inclusive
bounds, and — with only date criteria active — keeps exactly the records
accepted by the date predicate; other active filters still apply to
unparseable-date records; in the concrete example the range
[2024-03-01, 2024-03-07] drops the record dated 2024-03-09 and keeps the one
dated "garbage" together with exactly its paired auxiliary entry. -/
theorem applyFilters_date_filter :
    (∀ (u : LabelUpdate) (ds de : Option Date),
      parse_label_date (effectiveDateStr u) = none → dateKeep ds de u = true) ∧
    (∀ (u : LabelUpdate) (s e d : Date),
      parse_label_date (effectiveDateStr u) = some d →
      (dateLt d s = true ∨ dateLt e d = true) →
      dateKeep (some s) (some e) u = false) ∧
    (∀ (records : List LabelUpdate) (ds de : Option Date)
        (ct : Option (List String)) (fetched : List String),
      (apply_filters records ds de none none none none ct fetched).1 =
        records.filter (dateKeep ds de)) ∧
    (∀ (records : List LabelUpdate) (ds de : Option Date) (kwStr : String)
        (ct : Option (List String)) (fetched : List String),
      pyLower (pyStrip kwStr) ≠ "" →
      (apply_filters records ds de none none (some kwStr) none ct fetched).1 =
        (records.filter (dateKeep ds de)).filter
          (titleContains (pyLower (pyStrip kwStr)))) ∧
    (apply_filters
        [⟨"Drug A", "", "sidA", 1, "2024-03-09", ""⟩,
         ⟨"Drug B", "", "sidB", 1, "garbage", ""⟩]
        (some ⟨2024, 3, 1⟩) (some ⟨2024, 3, 7⟩) none none none none
        (some ["A", "B"]) [] =
      ([⟨"Drug B", "", "sidB", 1, "garbage", ""⟩], some ["B"])) := by
  refine ⟨?_, ?_, ?_, ?_, by decide⟩
  · intro u ds de h
    unfold dateKeep
    rw [h]
  · intro u s e d h hlt
    unfold dateKeep
    rw [h]
    rcases hlt with h1 | h1 <;> simp [h1]
  · intro records ds de ct fetched
    simp only [apply_filters]
    rw [condStage_false (by decide), condStage_false (by decide),
      classStage_inactive (by decide), condStage_date_fst]
  · intro records ds de kwStr ct fetched hkw
    simp only [apply_filters, Option.getD_some]
    rw [condStage_false (by decide), condStage_true (decide_eq_true hkw),
      classStage_inactive (by decide), stageFilter_fst, condStage_date_fst]

/-- C7 witness: the theorem applied at the two concrete records of the
example, discharging each hypothesis. -/
theorem applyFilters_date_filter_witness :
    (dateKeep (some ⟨2024, 3, 1⟩) (some ⟨2024, 3, 7⟩)
        ⟨"Drug B", "", "sidB", 1, "garbage", ""⟩ = true) ∧
    (dateKeep (some ⟨2024, 3, 1⟩) (some ⟨2024, 3, 7⟩)
        ⟨"Drug A", "", "sidA", 1, "2024-03-09", ""⟩ = false) ∧
    ((apply_filters [⟨"Drug B", "", "sidB", 1, "garbage", ""⟩]
        (some ⟨2024, 3, 1⟩) (some ⟨2024, 3, 7⟩) none none (some "drug") none
        none []).1 =
      ([⟨"Drug B", "", "sidB", 1, "garbage", ""⟩].filter
          (dateKeep (some ⟨2024, 3, 1⟩) (some ⟨2024, 3, 7⟩))).filter
        (titleContains (pyLower (pyStrip "drug")))) :=
  ⟨applyFilters_date_filter.1 _ (some ⟨2024, 3, 1⟩) (some ⟨2024, 3, 7⟩)
      (by decide),
   applyFilters_date_filter.2.1 _ ⟨2024, 3, 1⟩ ⟨2024, 3, 7⟩ ⟨2024, 3, 9⟩
      (by decide) (Or.inr (by decide)),
   applyFilters_date_filter.2.2.2.1 _ _ _ "drug" none [] (by decide)⟩

theorem normalizeTexts_eq_self {n : Nat} {ts : List String}
    (h : ts.length = n) : normalizeTexts n ts = ts := by
  simp [normalizeTexts, h]

/-- C9: a mismatched-length auxiliary sequence never makes `apply_filters`
fail: it is silently padded with empty strings (when too short) and/or
truncated (when too long) to exactly the record list's length before any
filtering, after which the pipeline behaves exactly as in the equal-length
case. -/
theorem applyFilters_mismatched_lengths (records : List LabelUpdate)
    (date_start date_end : Option Date) (code : Option String)
    (setids : Option (List String)) (kw mf : Option String)
    (ct : List String) (fetched : List String)
    (h : ct.length ≠ records.length) :
    (apply_filters records date_start date_end code setids kw mf (some ct)
        fetched =
      apply_filters records date_start date_end code setids kw mf
        (some (normalizeTexts records.length ct)) fetched) ∧
    ((normalizeTexts records.length ct).length = records.length) ∧
    (ct.length < records.length →
      normalizeTexts records.length ct =
        ct ++ List.replicate (records.length - ct.length) "") ∧
    (records.length < ct.length →
      normalizeTexts records.length ct = ct.take records.length) := by
  refine ⟨?_, normalizeTexts_length _ _, ?_, ?_⟩
  · simp only [apply_filters, Option.map_some',
      normalizeTexts_eq_self (normalizeTexts_length records.length ct)]
  · intro hlt
    simp only [normalizeTexts, if_pos h]
    rw [List.take_append_eq_append_take,
      List.take_of_length_le (show ct.length ≤ records.length by omega),
      List.take_replicate,
      Nat.min_eq_left (show records.length - ct.length ≤ records.length by
        omega)]
  · intro hlt
    simp only [normalizeTexts, if_pos h]
    rw [List.take_append_of_le_length
      (show records.length ≤ ct.length by omega)]

/-- C9 witness: the theorem applied at a concrete mismatched pair (two
records, one auxiliary entry), discharging the length-mismatch hypothesis. -/
theorem applyFilters_mismatched_lengths_witness :
    (apply_filters
        [⟨"Drug A", "", "sidA", 1, "2024-03-09", ""⟩,
         ⟨"Drug B", "", "sidB", 1, "garbage", ""⟩]
        none none none none none none (some ["A"]) [] =
      apply_filters
        [⟨"Drug A", "", "sidA", 1, "2024-03-09", ""⟩,
         ⟨"Drug B", "", "sidB", 1, "garbage", ""⟩]
        none none none none none none (some (normalizeTexts 2 ["A"])) []) ∧
    ((normalizeTexts 2 ["A"]).length = 2) ∧
    (normalizeTexts 2 ["A"] = ["A", ""]) := by
  have h := applyFilters_mismatched_lengths
    [⟨"Drug A", "", "sidA", 1, "2024-03-09", ""⟩,
     ⟨"Drug B", "", "sidB", 1, "garbage", ""⟩]
    none none none none none none ["A"] [] (by decide)
  exact ⟨h.1, h.2.1, by decide⟩

/-- C10 (implicit): when class-membership filtering is requested with an
empty identifier set — an empty `drug_class_setids` supplied and either no
class code given or the class-code resolution returning no identifiers — the
class stage is skipped entirely and every record is retained: an empty
allowed set acts as a no-op rather than dropping all records. -/
theorem applyFilters_empty_class_noop :
    (∀ (codeTruthy : Bool) (fetched : List String)
        (p : List LabelUpdate × Option (List String)),
      (codeTruthy = true → fetched = []) →
      classStage codeTruthy (some []) fetched p = p) ∧
    (∀ (records : List LabelUpdate) (code : Option String)
        (ct : Option (List String)) (fetched : List String),
      ((code.getD "") ≠ "" → fetched = []) →
      apply_filters records none none code (some []) none none ct fetched =
        (records, ct.map (normalizeTexts records.length))) := by
  have key : ∀ (codeTruthy : Bool) (fetched : List String)
      (p : List LabelUpdate × Option (List String)),
      (codeTruthy = true → fetched = []) →
      classStage codeTruthy (some []) fetched p = p := by
    intro codeTruthy fetched p h
    cases codeTruthy
    · simp [classStage]
    · simp [classStage, h rfl]
  refine ⟨key, ?_⟩
  intro records code ct fetched h
  simp only [apply_filters]
  rw [condStage_false (by decide), condStage_false (by decide),
    condStage_false (by decide),
    key _ _ _ (fun hc => h (of_decide_eq_true hc))]

/-- C10 witness: the theorem applied with a class code whose resolution
returned no identifiers and an explicitly empty setid set: both records are
retained. -/
theorem applyFilters_empty_class_noop_witness :
    apply_filters
        [⟨"Drug A", "", "sidA", 1, "2024-03-09", ""⟩,
         ⟨"Drug B", "", "sidB", 1, "garbage", ""⟩]
        none none (some "N0000178") (some []) none none (some ["A", "B"]) [] =
      ([⟨"Drug A", "", "sidA", 1, "2024-03-09", ""⟩,
        ⟨"Drug B", "", "sidB", 1, "garbage", ""⟩], some ["A", "B"]) := by
  have h := applyFilters_empty_class_noop.2
    [⟨"Drug A", "", "sidA", 1, "2024-03-09", ""⟩,
     ⟨"Drug B", "", "sidB", 1, "garbage", ""⟩]
    (some "N0000178") (some ["A", "B"]) [] (fun _ => rfl)
  rw [h]
  decide

end LabelWatch
